import Mathlib

/-!
Verification of the `imm` non-collapsed sampler bindings
(`imm/samplers/noncollapsed.py`) and of the generic inference behaviour
they bind to, as described by the repository's specification.

The compatibility declarations (`compatible_process_models`,
`compatible_mixture_models` of `GibbsSampler`, `RGMSSampler`,
`SliceSampler`) are translated directly from `src/imm/samplers/noncollapsed.py`.
The generic sampler machinery (module `imm/samplers/generic.py`: the
`infer` entry point, parameter validation, the per-iteration Gibbs scan
and the trace accumulation) is not part of the provided sources, so it is
modelled from the specification; each such definition is marked
`Modelled from the spec:` in its doc comment.
-/

namespace Imm

/-- Process-model variants of the repository (`imm.models.DP`, `imm.models.MFM`). -/
inductive ProcessModelType : Type
  | DP
  | MFM
deriving DecidableEq

/-- Mixture-model variants of the repository (`imm.models`). -/
inductive MixtureModelType : Type
  | CollapsedConjugateGaussianMixture
  | ConjugateGaussianMixture
  | NonconjugateGaussianMixture
deriving DecidableEq

/-- The three concrete samplers declared in `imm/samplers/noncollapsed.py`. -/
inductive SamplerType : Type
  | GibbsSampler
  | RGMSSampler
  | SliceSampler
deriving DecidableEq

namespace GibbsSampler

/-- `GibbsSampler.compatible_process_models = set([DP, MFM])`
(`noncollapsed.py`, line 49). -/
def compatible_process_models : List ProcessModelType :=
  [ProcessModelType.DP, ProcessModelType.MFM]

/-- `GibbsSampler.compatible_mixture_models =
set([CollapsedConjugateGaussianMixture, ConjugateGaussianMixture,
NonconjugateGaussianMixture])` (`noncollapsed.py`, lines 51-53). -/
def compatible_mixture_models : List MixtureModelType :=
  [MixtureModelType.CollapsedConjugateGaussianMixture,
   MixtureModelType.ConjugateGaussianMixture,
   MixtureModelType.NonconjugateGaussianMixture]

end GibbsSampler

namespace RGMSSampler

/-- `RGMSSampler.compatible_process_models = set([DP, MFM])`
(`noncollapsed.py`, line 94). -/
def compatible_process_models : List ProcessModelType :=
  [ProcessModelType.DP, ProcessModelType.MFM]

/-- `RGMSSampler.compatible_mixture_models = set([ConjugateGaussianMixture,
NonconjugateGaussianMixture])` (`noncollapsed.py`, lines 96-97). -/
def compatible_mixture_models : List MixtureModelType :=
  [MixtureModelType.ConjugateGaussianMixture,
   MixtureModelType.NonconjugateGaussianMixture]

end RGMSSampler

namespace SliceSampler

/-- `SliceSampler.compatible_process_models = set([DP])`
(`noncollapsed.py`, line 130). -/
def compatible_process_models : List ProcessModelType :=
  [ProcessModelType.DP]

/-- `SliceSampler.compatible_mixture_models = set([ConjugateGaussianMixture,
NonconjugateGaussianMixture])` (`noncollapsed.py`, lines 132-133). -/
def compatible_mixture_models : List MixtureModelType :=
  [MixtureModelType.ConjugateGaussianMixture,
   MixtureModelType.NonconjugateGaussianMixture]

end SliceSampler

/-- Dispatch a sampler to its declared compatible process models. -/
def processModelsOf : SamplerType → List ProcessModelType
  | SamplerType.GibbsSampler => GibbsSampler.compatible_process_models
  | SamplerType.RGMSSampler => RGMSSampler.compatible_process_models
  | SamplerType.SliceSampler => SliceSampler.compatible_process_models

/-- Dispatch a sampler to its declared compatible mixture models. -/
def mixtureModelsOf : SamplerType → List MixtureModelType
  | SamplerType.GibbsSampler => GibbsSampler.compatible_mixture_models
  | SamplerType.RGMSSampler => RGMSSampler.compatible_mixture_models
  | SamplerType.SliceSampler => SliceSampler.compatible_mixture_models

/-- Modelled from the spec: the error kinds of §7 raised by the generic
samplers (`imm/samplers/generic.py`, not under `src/`). -/
inductive ImmError : Type
  | IncompatibleModelError
  | InvalidParameterError
deriving DecidableEq

/-- Modelled from the spec (§4.4): a supplied (process model, mixture model)
pair is compatible with a sampler when each concrete type belongs to the
sampler's declared set. -/
def Compatible (S : SamplerType) (pm : ProcessModelType)
    (mm : MixtureModelType) : Prop :=
  pm ∈ processModelsOf S ∧ mm ∈ mixtureModelsOf S

instance (S : SamplerType) (pm : ProcessModelType) (mm : MixtureModelType) :
    Decidable (Compatible S pm mm) := by
  unfold Compatible
  infer_instance

/-- Modelled from the spec (§6): `m` defaults to 10 when omitted. -/
def resolveM (m : Option Int) : Int := m.getD 10

/-- Modelled from the spec (§6): `scheme` defaults to `(5,1,1,5)` when
omitted. -/
def resolveScheme (scheme : Option (List Int)) : List Int :=
  scheme.getD [5, 1, 1, 5]

/-- Modelled from the spec (§6): `max_iter` defaults to 1000 when omitted. -/
def resolveMaxIter (max_iter : Option Int) : Int := max_iter.getD 1000

/-- Modelled from the spec (§6): `warmup` defaults to `max_iter / 2` when
omitted. -/
def resolveWarmup (max_iter warmup : Option Int) : Int :=
  warmup.getD (resolveMaxIter max_iter / 2)

/-- Whether the sampler's `infer` signature takes the auxiliary-component
count `m` (Gibbs and restricted Gibbs merge-split do, the slice sampler
does not; `noncollapsed.py` docstrings, lines 22, 62, 106). -/
def usesAux : SamplerType → Bool
  | SamplerType.SliceSampler => false
  | _ => true

/-- Whether the sampler's `infer` signature takes the `scheme` parameter
(only the restricted Gibbs merge-split sampler does). -/
def usesScheme : SamplerType → Bool
  | SamplerType.RGMSSampler => true
  | _ => false

/-- Modelled from the spec (§4.2, §6): a well-formed scheme is a 4-tuple of
non-negative integers. -/
def SchemeValid (s : List Int) : Prop :=
  s.length = 4 ∧ ∀ v ∈ s, 0 ≤ v

instance (s : List Int) : Decidable (SchemeValid s) := by
  unfold SchemeValid
  infer_instance

/-- Modelled from the spec (§6, §7): the parameter constraints checked by
`infer` before any iteration runs: `m > 0` (where `m` exists),
a well-formed `scheme` (where `scheme` exists), `max_iter > 0`,
`0 ≤ warmup < max_iter`, and `len(x_n) = len(c_n)`. -/
def ParamsValid (S : SamplerType) (m : Option Int) (scheme : Option (List Int))
    (max_iter warmup : Option Int) (x_n : List (List Int))
    (c_n : List Nat) : Prop :=
  (usesAux S = true → 0 < resolveM m)
  ∧ (usesScheme S = true → SchemeValid (resolveScheme scheme))
  ∧ 0 < resolveMaxIter max_iter
  ∧ 0 ≤ resolveWarmup max_iter warmup
  ∧ resolveWarmup max_iter warmup < resolveMaxIter max_iter
  ∧ x_n.length = c_n.length

instance (S : SamplerType) (m : Option Int) (scheme : Option (List Int))
    (max_iter warmup : Option Int) (x_n : List (List Int)) (c_n : List Nat) :
    Decidable (ParamsValid S m scheme max_iter warmup x_n c_n) := by
  unfold ParamsValid
  infer_instance

/-- Modelled from the spec (§9): the ambient random source is an explicit
deterministic generator seeded once per `infer` call; here a pure hash of
the seed, the iteration counter and the observation index. -/
def rngOf (seed t i : Nat) : Nat :=
  (seed * 2654435761 + t * 40503 + i * 97 + 12345) % 4294967296

/-- Modelled from the spec (§3): after an observation with label `g` is
removed, if its cluster became empty (label `g` no longer occurs) the label
is retired by shifting every label above `g` down by one, keeping the used
labels contiguous. -/
def compactAfterRemove (g : Nat) (e : List Nat) : List Nat :=
  if g ∈ e then e else e.map (fun l => if g < l then l - 1 else l)

/-- Modelled from the spec (§3, §4.1): one single-observation reassignment
step. Observation `i` is removed from its cluster (retiring the cluster if
now empty), then joins a cluster drawn categorically among the `k` current
clusters and one fresh cluster (label `k`), the draw being supplied by the
random source `r`. -/
def gibbsStep (r : Nat) (c : List Nat) (i : Nat) : List Nat :=
  match c.get? i with
  | none => c
  | some g =>
    (compactAfterRemove g (c.eraseIdx i)).insertIdx i
      (r % ((compactAfterRemove g (c.eraseIdx i)).toFinset.card + 1))

/-- Modelled from the spec (§4.1): one full iteration reassigns every
observation in a fixed scan order. -/
def gibbsScan (seed t : Nat) (c : List Nat) : List Nat :=
  (List.range c.length).foldl (fun acc i => gibbsStep (rngOf seed t i) acc i) c

/-- Modelled from the spec (§4.1, §8): the sequence of assignment snapshots
taken at the end of each of `n` successive iterations starting at iteration
counter `t`. -/
def statesList (seed : Nat) : Nat → Nat → List Nat → List (List Nat)
  | 0, _, _ => []
  | n + 1, t, c =>
    gibbsScan seed t c :: statesList seed n (t + 1) (gibbsScan seed t c)

/-- Modelled from the spec (§3, §6): the initial assignment is "not required
to be already a valid labeling beyond non-negativity", while the data-model
invariant demands contiguous labels, so the labels are compacted before the
first iteration: each label is replaced by its rank among the distinct
labels in use. -/
def normalizeLabels (c : List Nat) : List Nat :=
  c.map (fun l => (c.toFinset.filter (fun x => x < l)).card)

/-- Modelled from the spec (§3, §4.4, §6, §7): the inference entry point.
Compatibility is checked first (construction/validation time), then the
parameters, both before any iteration; the initial labeling is compacted
to satisfy the data-model invariant, and on success the returned trace is
the post-warmup suffix of the per-iteration snapshots. -/
def infer (S : SamplerType) (pm : ProcessModelType) (mm : MixtureModelType)
    (x_n : List (List Int)) (c_n : List Nat)
    (m : Option Int) (scheme : Option (List Int))
    (max_iter warmup : Option Int) (seed : Nat) :
    Except ImmError (List (List Nat)) :=
  if Compatible S pm mm then
    if ParamsValid S m scheme max_iter warmup x_n c_n then
      Except.ok ((statesList seed (resolveMaxIter max_iter).toNat 0
        (normalizeLabels c_n)).drop (resolveWarmup max_iter warmup).toNat)
    else Except.error ImmError.InvalidParameterError
  else Except.error ImmError.IncompatibleModelError

/-- The data-model invariant of §3: the set of distinct labels of the
assignment vector is exactly `{0, ..., k-1}` where `k` is the number of
distinct labels in use. -/
def Tidy (c : List Nat) : Prop :=
  c.toFinset = Finset.range c.toFinset.card

instance (c : List Nat) : Decidable (Tidy c) := by
  unfold Tidy
  infer_instance

/-! Helper lemmas. -/

lemma statesList_length (seed : Nat) (n : Nat) :
    ∀ (t : Nat) (c : List Nat), (statesList seed n t c).length = n := by
  induction n with
  | zero => intro t c; rfl
  | succ n ih =>
    intro t c
    unfold statesList
    simp [ih]

lemma tidy_of_range {c : List Nat} {n : Nat}
    (h : c.toFinset = Finset.range n) : Tidy c := by
  unfold Tidy
  rw [h, Finset.card_range]

lemma toFinset_eraseIdx :
    ∀ (c : List Nat) (i g : Nat), c.get? i = some g →
      c.toFinset = insert g (c.eraseIdx i).toFinset := by
  intro c
  induction c with
  | nil =>
    intro i g h
    simp at h
  | cons a rest ih =>
    intro i g h
    cases i with
    | zero =>
      simp only [List.get?_cons_zero, Option.some_inj] at h
      subst h
      simp [List.eraseIdx]
    | succ i =>
      simp only [List.get?_cons_succ] at h
      rw [List.eraseIdx_cons_succ, List.toFinset_cons, List.toFinset_cons,
        ih i g h, Finset.Insert.comm]

lemma erase_image_shift (k g : Nat) (hg : g < k) :
    ((Finset.range k).erase g).image (fun l => if g < l then l - 1 else l)
      = Finset.range (k - 1) := by
  ext x
  simp only [Finset.mem_image, Finset.mem_erase, Finset.mem_range]
  constructor
  · rintro ⟨l, ⟨hne, hl⟩, rfl⟩
    split_ifs with hgl
    · omega
    · omega
  · intro hx
    by_cases hxg : x < g
    · refine ⟨x, ⟨by omega, by omega⟩, ?_⟩
      rw [if_neg (by omega : ¬ g < x)]
    · refine ⟨x + 1, ⟨by omega, by omega⟩, ?_⟩
      rw [if_pos (by omega : g < x + 1)]
      omega

lemma toFinset_list_map (e : List Nat) (f : Nat → Nat) :
    (e.map f).toFinset = e.toFinset.image f := by
  ext x
  simp [List.mem_map]

lemma rank_lt_card {S : Finset ℕ} {a : ℕ} (ha : a ∈ S) :
    (S.filter (fun x => x < a)).card < S.card := by
  have hsub : S.filter (fun x => x < a) ⊆ S.erase a := by
    intro x hx
    rw [Finset.mem_filter] at hx
    exact Finset.mem_erase.mpr ⟨by omega, hx.1⟩
  have h1 : (S.filter (fun x => x < a)).card ≤ (S.erase a).card :=
    Finset.card_le_card hsub
  have h2 : (S.erase a).card = S.card - 1 := Finset.card_erase_of_mem ha
  have h3 : 0 < S.card := Finset.card_pos.mpr ⟨a, ha⟩
  omega

lemma rank_strict_mono {S : Finset ℕ} {a b : ℕ} (ha : a ∈ S) (hab : a < b) :
    (S.filter (fun x => x < a)).card < (S.filter (fun x => x < b)).card := by
  apply Finset.card_lt_card
  rw [Finset.ssubset_def]
  constructor
  · intro x hx
    rw [Finset.mem_filter] at hx ⊢
    exact ⟨hx.1, by omega⟩
  · intro hsub
    have hmem : a ∈ S.filter (fun x => x < b) := Finset.mem_filter.mpr ⟨ha, hab⟩
    have := Finset.mem_filter.mp (hsub hmem)
    omega

lemma rank_image (S : Finset ℕ) :
    S.image (fun l => (S.filter (fun x => x < l)).card) = Finset.range S.card := by
  apply Finset.eq_of_subset_of_card_le
  · intro y hy
    rw [Finset.mem_image] at hy
    obtain ⟨a, ha, rfl⟩ := hy
    exact Finset.mem_range.mpr (rank_lt_card ha)
  · have hinj : Set.InjOn (fun l => (S.filter (fun x => x < l)).card) S := by
      intro a ha b hb hfab
      have ha2 : a ∈ S := ha
      have hb2 : b ∈ S := hb
      by_contra hne
      rcases Nat.lt_or_ge a b with h | h
      · exact absurd hfab (Nat.ne_of_lt (rank_strict_mono ha2 h))
      · have h2 : b < a := by omega
        exact absurd hfab.symm (Nat.ne_of_lt (rank_strict_mono hb2 h2))
    rw [Finset.card_range, Finset.card_image_of_injOn hinj]

lemma tidy_normalizeLabels (c : List Nat) : Tidy (normalizeLabels c) := by
  apply tidy_of_range (n := c.toFinset.card)
  unfold normalizeLabels
  rw [toFinset_list_map, rank_image]

lemma compactAfterRemove_toFinset {g k : Nat} {e : List Nat}
    (hins : insert g e.toFinset = Finset.range k) (hgk : g < k) :
    ∃ k2, (compactAfterRemove g e).toFinset = Finset.range k2 := by
  unfold compactAfterRemove
  split_ifs with hmem
  · refine ⟨k, ?_⟩
    rw [← hins, Finset.insert_eq_self.mpr (List.mem_toFinset.mpr hmem)]
  · refine ⟨k - 1, ?_⟩
    have he : e.toFinset = (Finset.range k).erase g := by
      rw [← hins, Finset.erase_insert ?_]
      intro hc
      exact hmem (List.mem_toFinset.mp hc)
    rw [toFinset_list_map, he, erase_image_shift k g hgk]

lemma toFinset_insertIdx :
    ∀ (c : List Nat) (i u : Nat), i ≤ c.length →
      (c.insertIdx i u).toFinset = insert u c.toFinset := by
  intro c
  induction c with
  | nil =>
    intro i u h
    have : i = 0 := Nat.le_zero.mp h
    subst this
    rfl
  | cons a rest ih =>
    intro i u h
    cases i with
    | zero => rw [List.insertIdx_zero, List.toFinset_cons]
    | succ i =>
      rw [List.insertIdx_succ_cons, List.toFinset_cons, List.toFinset_cons,
        ih i u (Nat.le_of_succ_le_succ h), Finset.Insert.comm]

lemma gibbsStep_none {c : List Nat} {i : Nat} (r : Nat) (hg : c.get? i = none) :
    gibbsStep r c i = c := by
  unfold gibbsStep
  rw [hg]

lemma gibbsStep_some {c : List Nat} {i g : Nat} (r : Nat) (hg : c.get? i = some g) :
    gibbsStep r c i = (compactAfterRemove g (c.eraseIdx i)).insertIdx i
      (r % ((compactAfterRemove g (c.eraseIdx i)).toFinset.card + 1)) := by
  unfold gibbsStep
  rw [hg]

lemma tidy_gibbsStep (r : Nat) (c : List Nat) (i : Nat) (h : Tidy c) :
    Tidy (gibbsStep r c i) := by
  cases hg : c.get? i with
  | none => rw [gibbsStep_none r hg]; exact h
  | some g =>
    rw [gibbsStep_some r hg]
    have hik : i < c.length := by
      by_contra hni
      rw [List.get?_eq_none.mpr (Nat.le_of_not_lt hni)] at hg
      cases hg
    have hgc : g ∈ c.toFinset := List.mem_toFinset.mpr (List.get?_mem hg)
    have hgk : g < c.toFinset.card := by
      have := h ▸ hgc
      exact Finset.mem_range.mp this
    have hins : insert g (c.eraseIdx i).toFinset = Finset.range c.toFinset.card := by
      rw [← toFinset_eraseIdx c i g hg]
      exact h
    obtain ⟨k2, hk2⟩ := compactAfterRemove_toFinset hins hgk
    have hlen : (compactAfterRemove g (c.eraseIdx i)).length = c.length - 1 := by
      unfold compactAfterRemove
      split_ifs
      · rw [List.length_eraseIdx_of_lt hik]
      · rw [List.length_map, List.length_eraseIdx_of_lt hik]
    have hile : i ≤ (compactAfterRemove g (c.eraseIdx i)).length := by omega
    have hcard : (compactAfterRemove g (c.eraseIdx i)).toFinset.card = k2 := by
      rw [hk2, Finset.card_range]
    set u := r % ((compactAfterRemove g (c.eraseIdx i)).toFinset.card + 1) with hudef
    have hu : u ≤ k2 := by
      have hlt : u < (compactAfterRemove g (c.eraseIdx i)).toFinset.card + 1 :=
        Nat.mod_lt r (by omega)
      omega
    apply tidy_of_range (n := if u = k2 then k2 + 1 else k2)
    rw [toFinset_insertIdx _ _ _ hile, hk2]
    split_ifs with heq
    · rw [heq, ← Finset.range_succ]
    · rw [Finset.insert_eq_self.mpr (Finset.mem_range.mpr (by omega))]

lemma tidy_foldl (f : List Nat → Nat → List Nat)
    (hf : ∀ acc i, Tidy acc → Tidy (f acc i)) :
    ∀ (l : List Nat) (acc : List Nat), Tidy acc → Tidy (l.foldl f acc) := by
  intro l
  induction l with
  | nil => intro acc h; exact h
  | cons a t ih =>
    intro acc h
    exact ih _ (hf acc a h)

lemma tidy_gibbsScan (seed t : Nat) (c : List Nat) (h : Tidy c) :
    Tidy (gibbsScan seed t c) := by
  unfold gibbsScan
  exact tidy_foldl _ (fun acc i hacc => tidy_gibbsStep _ acc i hacc) _ c h

lemma tidy_statesList (seed : Nat) :
    ∀ (n t : Nat) (c : List Nat), Tidy c →
      ∀ s ∈ statesList seed n t c, Tidy s := by
  intro n
  induction n with
  | zero =>
    intro t c _ s hs
    simp [statesList] at hs
  | succ n ih =>
    intro t c hc s hs
    unfold statesList at hs
    rcases List.mem_cons.mp hs with h | h
    · subst h
      exact tidy_gibbsScan seed t c hc
    · exact ih (t + 1) (gibbsScan seed t c) (tidy_gibbsScan seed t c hc) s h

/-! Claim theorems. -/

/-- C1: for every concrete sampler, if the supplied process model's or
mixture model's concrete type is not a member of that sampler's declared
compatibility set, validation fails with `IncompatibleModelError` before
the first iteration runs, never silently falling back. -/
theorem incompatible_model_rejected (S : SamplerType) (pm : ProcessModelType)
    (mm : MixtureModelType) (x_n : List (List Int)) (c_n : List Nat)
    (m : Option Int) (scheme : Option (List Int)) (max_iter warmup : Option Int)
    (seed : Nat)
    (h : pm ∉ processModelsOf S ∨ mm ∉ mixtureModelsOf S) :
    infer S pm mm x_n c_n m scheme max_iter warmup seed =
      Except.error ImmError.IncompatibleModelError := by
  have hnc : ¬ Compatible S pm mm := by
    intro hc
    rcases h with h | h
    · exact h hc.1
    · exact h hc.2
  unfold infer
  rw [if_neg hnc]

/-- C1 witness: the slice sampler rejects the MFM process model. -/
theorem incompatible_model_rejected_witness :
    (ProcessModelType.MFM ∉ processModelsOf SamplerType.SliceSampler ∨
      MixtureModelType.ConjugateGaussianMixture ∉
        mixtureModelsOf SamplerType.SliceSampler) ∧
    infer SamplerType.SliceSampler ProcessModelType.MFM
      MixtureModelType.ConjugateGaussianMixture [[0]] [0] none none none none 0 =
      Except.error ImmError.IncompatibleModelError :=
  ⟨Or.inl (by decide),
   incompatible_model_rejected SamplerType.SliceSampler ProcessModelType.MFM
     MixtureModelType.ConjugateGaussianMixture [[0]] [0] none none none none 0
     (Or.inl (by decide))⟩

/-- C2: the slice sampler's declared compatible process-model set is exactly
`{DP}`, and constructing/validating it with an MFM process model yields
`IncompatibleModelError` immediately, before any data is processed. -/
theorem slice_sampler_dp_only :
    SliceSampler.compatible_process_models = [ProcessModelType.DP] ∧
    ∀ (mm : MixtureModelType) (x_n : List (List Int)) (c_n : List Nat)
      (max_iter warmup : Option Int) (seed : Nat),
      infer SamplerType.SliceSampler ProcessModelType.MFM mm x_n c_n none none
        max_iter warmup seed = Except.error ImmError.IncompatibleModelError := by
  refine ⟨rfl, ?_⟩
  intro mm x_n c_n max_iter warmup seed
  have hnc : ¬ Compatible SamplerType.SliceSampler ProcessModelType.MFM mm := by
    intro hc
    exact absurd hc.1 (by decide)
  unfold infer
  rw [if_neg hnc]

/-- C3: every invalid parameter configuration — `m ≤ 0` (where the sampler
takes `m`), `max_iter ≤ 0`, `warmup` outside `0 ≤ warmup < max_iter`, a
malformed scheme (where the sampler takes `scheme`), or a length mismatch
between `x_n` and `c_n` — makes `infer` fail with `InvalidParameterError`
before any iteration of the sampling loop; `m = 0`, `max_iter = 0` and
`warmup = max_iter` are particular instances. -/
theorem invalid_parameters_rejected (S : SamplerType) (pm : ProcessModelType)
    (mm : MixtureModelType) (x_n : List (List Int)) (c_n : List Nat)
    (m : Option Int) (scheme : Option (List Int)) (max_iter warmup : Option Int)
    (seed : Nat)
    (hc : Compatible S pm mm)
    (h : (usesAux S = true ∧ resolveM m ≤ 0)
      ∨ resolveMaxIter max_iter ≤ 0
      ∨ resolveWarmup max_iter warmup < 0
      ∨ resolveMaxIter max_iter ≤ resolveWarmup max_iter warmup
      ∨ (usesScheme S = true ∧ ¬ SchemeValid (resolveScheme scheme))
      ∨ x_n.length ≠ c_n.length) :
    infer S pm mm x_n c_n m scheme max_iter warmup seed =
      Except.error ImmError.InvalidParameterError := by
  have hnp : ¬ ParamsValid S m scheme max_iter warmup x_n c_n := by
    intro hp
    obtain ⟨h1, h2, h3, h4, h5, h6⟩ := hp
    rcases h with ⟨ha, hb⟩ | h | h | h | ⟨ha, hb⟩ | h
    · exact absurd (h1 ha) (not_lt.mpr hb)
    · omega
    · omega
    · omega
    · exact hb (h2 ha)
    · exact h h6
  unfold infer
  rw [if_pos hc, if_neg hnp]

/-- C3 witness: the Gibbs sampler with a compatible model pair and `m = 0`
fails with `InvalidParameterError`. -/
theorem invalid_parameters_rejected_witness :
    Compatible SamplerType.GibbsSampler ProcessModelType.DP
      MixtureModelType.ConjugateGaussianMixture ∧
    (usesAux SamplerType.GibbsSampler = true ∧ resolveM (some 0) ≤ 0) ∧
    infer SamplerType.GibbsSampler ProcessModelType.DP
      MixtureModelType.ConjugateGaussianMixture [[0]] [0] (some 0) none none
      none 0 = Except.error ImmError.InvalidParameterError :=
  ⟨by decide, by decide,
   invalid_parameters_rejected SamplerType.GibbsSampler ProcessModelType.DP
     MixtureModelType.ConjugateGaussianMixture [[0]] [0] (some 0) none none
     none 0 (by decide) (Or.inl (by decide))⟩

/-- C4: for every valid input (compatible models and valid parameters), the
trace returned by `infer` has length exactly `max_iter − warmup`, one
snapshot per post-warmup iteration in iteration order. -/
theorem trace_length_eq_max_iter_sub_warmup (S : SamplerType)
    (pm : ProcessModelType) (mm : MixtureModelType) (x_n : List (List Int))
    (c_n : List Nat) (m : Option Int) (scheme : Option (List Int))
    (max_iter warmup : Option Int) (seed : Nat)
    (hc : Compatible S pm mm)
    (hp : ParamsValid S m scheme max_iter warmup x_n c_n) :
    ∃ tr, infer S pm mm x_n c_n m scheme max_iter warmup seed = Except.ok tr ∧
      (tr.length : Int) = resolveMaxIter max_iter - resolveWarmup max_iter warmup := by
  refine ⟨(statesList seed (resolveMaxIter max_iter).toNat 0
    (normalizeLabels c_n)).drop (resolveWarmup max_iter warmup).toNat, ?_, ?_⟩
  · unfold infer
    rw [if_pos hc, if_pos hp]
  · have h3 := hp.2.2.1
    have h4 := hp.2.2.2.1
    have h5 := hp.2.2.2.2.1
    rw [List.length_drop, statesList_length]
    omega

/-- C4 witness: a concrete valid run of the Gibbs sampler with
`max_iter = 4` and `warmup = 1` yields a trace of length 3. -/
theorem trace_length_eq_max_iter_sub_warmup_witness :
    Compatible SamplerType.GibbsSampler ProcessModelType.DP
      MixtureModelType.ConjugateGaussianMixture ∧
    ParamsValid SamplerType.GibbsSampler none none (some 4) (some 1) [[0], [1]]
      [0, 0] ∧
    ∃ tr, infer SamplerType.GibbsSampler ProcessModelType.DP
        MixtureModelType.ConjugateGaussianMixture [[0], [1]] [0, 0] none none
        (some 4) (some 1) 7 = Except.ok tr ∧
      (tr.length : Int) = resolveMaxIter (some 4) - resolveWarmup (some 4) (some 1) :=
  ⟨by decide, by decide,
   trace_length_eq_max_iter_sub_warmup SamplerType.GibbsSampler
     ProcessModelType.DP MixtureModelType.ConjugateGaussianMixture [[0], [1]]
     [0, 0] none none (some 4) (some 1) 7 (by decide) (by decide)⟩

/-- C5: for every valid inference run, the assignment snapshot at the end of
every iteration uses exactly the labels `{0, ..., k-1}` where `k` is the
current cluster count, and every active cluster has at least one member;
the initial labeling is compacted before the first iteration, so nothing
beyond non-negativity is assumed of `c_n`. -/
theorem trace_labels_contiguous_nonempty (S : SamplerType)
    (pm : ProcessModelType) (mm : MixtureModelType) (x_n : List (List Int))
    (c_n : List Nat) (m : Option Int) (scheme : Option (List Int))
    (max_iter warmup : Option Int) (seed : Nat)
    (hc : Compatible S pm mm)
    (hp : ParamsValid S m scheme max_iter warmup x_n c_n) :
    (∀ s ∈ statesList seed (resolveMaxIter max_iter).toNat 0
        (normalizeLabels c_n),
      s.toFinset = Finset.range s.toFinset.card ∧
        ∀ l < s.toFinset.card, l ∈ s) ∧
    ∃ tr, infer S pm mm x_n c_n m scheme max_iter warmup seed = Except.ok tr ∧
      ∀ s ∈ tr, s.toFinset = Finset.range s.toFinset.card ∧
        ∀ l < s.toFinset.card, l ∈ s := by
  have hall : ∀ s ∈ statesList seed (resolveMaxIter max_iter).toNat 0
      (normalizeLabels c_n),
      s.toFinset = Finset.range s.toFinset.card ∧
        ∀ l < s.toFinset.card, l ∈ s := by
    intro s hs
    have hts : Tidy s :=
      tidy_statesList seed (resolveMaxIter max_iter).toNat 0
        (normalizeLabels c_n) (tidy_normalizeLabels c_n) s hs
    refine ⟨hts, ?_⟩
    intro l hl
    have hmem : l ∈ s.toFinset := by
      rw [hts]
      exact Finset.mem_range.mpr hl
    exact List.mem_toFinset.mp hmem
  refine ⟨hall, ⟨(statesList seed (resolveMaxIter max_iter).toNat 0
    (normalizeLabels c_n)).drop (resolveWarmup max_iter warmup).toNat, ?_, ?_⟩⟩
  · unfold infer
    rw [if_pos hc, if_pos hp]
  · intro s hs
    exact hall s (List.drop_subset _ _ hs)

/-- C5 witness: a valid Gibbs run from the non-contiguous (but spec-legal)
initial assignment `[0, 7, 7]` keeps labels contiguous and clusters
non-empty in every snapshot. -/
theorem trace_labels_contiguous_nonempty_witness :
    Compatible SamplerType.GibbsSampler ProcessModelType.DP
      MixtureModelType.ConjugateGaussianMixture ∧
    ParamsValid SamplerType.GibbsSampler none none (some 1) (some 0)
      [[0], [1], [2]] [0, 7, 7] ∧
    ((∀ s ∈ statesList 0 (resolveMaxIter (some 1)).toNat 0
        (normalizeLabels [0, 7, 7]),
      s.toFinset = Finset.range s.toFinset.card ∧
        ∀ l < s.toFinset.card, l ∈ s) ∧
    ∃ tr, infer SamplerType.GibbsSampler ProcessModelType.DP
        MixtureModelType.ConjugateGaussianMixture [[0], [1], [2]] [0, 7, 7]
        none none (some 1) (some 0) 0 = Except.ok tr ∧
      ∀ s ∈ tr, s.toFinset = Finset.range s.toFinset.card ∧
        ∀ l < s.toFinset.card, l ∈ s) :=
  ⟨by decide, by decide,
   trace_labels_contiguous_nonempty SamplerType.GibbsSampler ProcessModelType.DP
     MixtureModelType.ConjugateGaussianMixture [[0], [1], [2]] [0, 7, 7] none
     none (some 1) (some 0) 0 (by decide) (by decide)⟩

/-- C6: two runs of `infer` with identical random state, identical data,
identical initial assignment and identical hyperparameters produce
identical traces. -/
theorem infer_deterministic (S : SamplerType) (pm : ProcessModelType)
    (mm : MixtureModelType) (x1 x2 : List (List Int)) (c1 c2 : List Nat)
    (m1 m2 : Option Int) (sch1 sch2 : Option (List Int))
    (Mi1 Mi2 W1 W2 : Option Int) (s1 s2 : Nat)
    (hx : x1 = x2) (hc : c1 = c2) (hm : m1 = m2) (hsch : sch1 = sch2)
    (hMi : Mi1 = Mi2) (hW : W1 = W2) (hs : s1 = s2) :
    infer S pm mm x1 c1 m1 sch1 Mi1 W1 s1 =
      infer S pm mm x2 c2 m2 sch2 Mi2 W2 s2 := by
  subst hx hc hm hsch hMi hW hs
  rfl

/-- C6 witness: two identically-configured runs agree. -/
theorem infer_deterministic_witness :
    infer SamplerType.GibbsSampler ProcessModelType.DP
        MixtureModelType.ConjugateGaussianMixture [[0], [1]] [0, 1] none none
        (some 2) (some 0) 9 =
      infer SamplerType.GibbsSampler ProcessModelType.DP
        MixtureModelType.ConjugateGaussianMixture [[0], [1]] [0, 1] none none
        (some 2) (some 0) 9 :=
  infer_deterministic SamplerType.GibbsSampler ProcessModelType.DP
    MixtureModelType.ConjugateGaussianMixture [[0], [1]] [[0], [1]] [0, 1]
    [0, 1] none none none none (some 2) (some 2) (some 0) (some 0) 9 9
    rfl rfl rfl rfl rfl rfl rfl

/-- C7: the Gibbs sampler's declared compatibility covers both process-model
variants (DP, MFM) and all three mixture-model variants, and every such
combination passes compatibility validation. -/
theorem gibbs_covers_all_model_variants :
    ProcessModelType.DP ∈ GibbsSampler.compatible_process_models ∧
    ProcessModelType.MFM ∈ GibbsSampler.compatible_process_models ∧
    MixtureModelType.CollapsedConjugateGaussianMixture ∈
      GibbsSampler.compatible_mixture_models ∧
    MixtureModelType.ConjugateGaussianMixture ∈
      GibbsSampler.compatible_mixture_models ∧
    MixtureModelType.NonconjugateGaussianMixture ∈
      GibbsSampler.compatible_mixture_models ∧
    ∀ pm ∈ GibbsSampler.compatible_process_models,
      ∀ mm ∈ GibbsSampler.compatible_mixture_models,
        Compatible SamplerType.GibbsSampler pm mm := by
  decide

/-- C8: the default parameter values: `m` defaults to 10, `scheme` defaults
to `(5,1,1,5)`, `max_iter` defaults to 1000, and `warmup` defaults to
`max_iter / 2` (hence 500 under the default `max_iter`). -/
theorem default_parameter_values :
    resolveM none = 10 ∧
    resolveScheme none = [5, 1, 1, 5] ∧
    resolveMaxIter none = 1000 ∧
    (∀ max_iter : Option Int,
      resolveWarmup max_iter none = resolveMaxIter max_iter / 2) ∧
    resolveWarmup none none = 500 := by
  refine ⟨rfl, rfl, rfl, fun max_iter => rfl, rfl⟩

/-- C9: the collapsed conjugate Gaussian mixture is absent from the RGMS and
slice samplers' declared mixture sets (so either combination fails
compatibility validation), and the Gibbs sampler is the only concrete
sampler whose declared set contains it. -/
theorem collapsed_mixture_gibbs_only :
    MixtureModelType.CollapsedConjugateGaussianMixture ∉
      RGMSSampler.compatible_mixture_models ∧
    MixtureModelType.CollapsedConjugateGaussianMixture ∉
      SliceSampler.compatible_mixture_models ∧
    MixtureModelType.CollapsedConjugateGaussianMixture ∈
      GibbsSampler.compatible_mixture_models ∧
    (∀ pm : ProcessModelType,
      ¬ Compatible SamplerType.RGMSSampler pm
        MixtureModelType.CollapsedConjugateGaussianMixture) ∧
    (∀ pm : ProcessModelType,
      ¬ Compatible SamplerType.SliceSampler pm
        MixtureModelType.CollapsedConjugateGaussianMixture) ∧
    (∀ S : SamplerType,
      MixtureModelType.CollapsedConjugateGaussianMixture ∈ mixtureModelsOf S ↔
        S = SamplerType.GibbsSampler) := by
  refine ⟨by decide, by decide, by decide, ?_, ?_, ?_⟩
  · intro pm
    cases pm <;> decide
  · intro pm
    cases pm <;> decide
  · intro S
    cases S <;> decide

/-- C10: every concrete sampler declares DP among its compatible process
models and both non-collapsed Gaussian mixtures among its compatible
mixture models, so (DP, either non-collapsed mixture) passes compatibility
validation for all three samplers. -/
theorem all_samplers_accept_dp_noncollapsed :
    (∀ S : SamplerType, ProcessModelType.DP ∈ processModelsOf S) ∧
    (∀ S : SamplerType,
      MixtureModelType.ConjugateGaussianMixture ∈ mixtureModelsOf S ∧
      MixtureModelType.NonconjugateGaussianMixture ∈ mixtureModelsOf S) ∧
    (∀ S : SamplerType,
      Compatible S ProcessModelType.DP
        MixtureModelType.ConjugateGaussianMixture ∧
      Compatible S ProcessModelType.DP
        MixtureModelType.NonconjugateGaussianMixture) := by
  refine ⟨?_, ?_, ?_⟩ <;> intro S <;> cases S <;> decide

end Imm
